import Mathlib

set_option maxHeartbeats 1000000

namespace Everest

/-- One lead record, as declared by the `Lead` interface in
`src/frnt/src/app/lead/leadDrop/page.tsx` (lines 5-19).  The source's status
union type is erased to `String` because the grouping state is typed
`Record<string, Lead[]>` and the drag payload statuses travel as plain
strings. -/
structure Lead where
  _id : String
  companyName : String
  customerName : String
  amount : Int
  productName : String
  contactNumber : String
  emailAddress : String
  address : String
  notes : String
  date : String
  endDate : String
  status : String
  isActive : Bool
deriving Repr, DecidableEq

/-- The `groupedLeads` React state: a JavaScript object mapping a status
string to the list of leads currently shown in that partition.  An absent
key reads as `undefined`, modelled by `none`. -/
def GroupedLeads : Type := String → Option (List Lead)

/-- The initial `groupedLeads` state `{}`. -/
def emptyGrouped : GroupedLeads := fun _ => none

/-- The object update `{ ...prev, [k]: v }` used by every mutation of
`groupedLeads` (computed spread with a single overridden key). -/
def setStatus (g : GroupedLeads) (k : String) (v : List Lead) : GroupedLeads :=
  fun s => if s = k then some v else g s

/-- One step of the `reduce` in `groupLeadsByStatus` (page.tsx lines 58-64):
`if (!acc[lead.status]) acc[lead.status] = []; acc[lead.status].push(lead)`,
i.e. append `lead` to the list at key `lead.status`, creating `[]` first when
the key is absent. -/
def groupStep (acc : GroupedLeads) (lead : Lead) : GroupedLeads :=
  setStatus acc lead.status ((acc lead.status).getD [] ++ [lead])

/-- Model of `groupLeadsByStatus` (page.tsx lines 57-67): partition the fetched leads
by their `status` field, starting from the empty object. -/
def groupLeadsByStatus (leads : List Lead) : GroupedLeads :=
  leads.foldl groupStep emptyGrouped

/-- The functional updater passed to `setGroupedLeads` in the optimistic
branch of `handleDrop` (page.tsx lines 95-105).
`prev[fromStatus].filter(...)` throws a `TypeError` when the `fromStatus`
key is absent, modelled by `none`; the destination lookup
`prev[toStatus] || []` is guarded.  The appended element is
`updatedLead = { ...lead, status: toStatus }`. -/
def applyOptimistic (lead : Lead) (fromStatus toStatus : String)
    (prev : GroupedLeads) : Option GroupedLeads :=
  match prev fromStatus with
  | none => none
  | some fl =>
      let fromLeads := fl.filter (fun l => l._id != lead._id)
      let toLeads := (prev toStatus).getD [] ++ [{ lead with status := toStatus }]
      some (setStatus (setStatus prev fromStatus fromLeads) toStatus toLeads)

/-- The rollback updater in the `!data.success` branch of `handleDrop`
(page.tsx lines 122-132): remove the lead's id from `toStatus` and append
the original `lead` object to `fromStatus` (guarded lookup on the
destination of the rollback, unguarded `.filter` on its source). -/
def applyRollbackOnReject (lead : Lead) (fromStatus toStatus : String)
    (prev : GroupedLeads) : Option GroupedLeads :=
  match prev toStatus with
  | none => none
  | some tl =>
      let toLeads := tl.filter (fun l => l._id != lead._id)
      let fromLeads := (prev fromStatus).getD [] ++ [lead]
      some (setStatus (setStatus prev fromStatus fromLeads) toStatus toLeads)

/-- The rollback updater in the `catch` branch of `handleDrop`
(page.tsx lines 136-146), duplicated verbatim from the rejection branch. -/
def applyRollbackOnError (lead : Lead) (fromStatus toStatus : String)
    (prev : GroupedLeads) : Option GroupedLeads :=
  match prev toStatus with
  | none => none
  | some tl =>
      let toLeads := tl.filter (fun l => l._id != lead._id)
      let fromLeads := (prev fromStatus).getD [] ++ [lead]
      some (setStatus (setStatus prev fromStatus fromLeads) toStatus toLeads)

/-- The conditions `handleDrop` reports through the console, named after
the spec's error taxonomy: `console.warn("Cannot drop into the same
category.")`, `console.error("Failed to update lead status on server.")`
and `console.error("Error updating lead status:", ...)`. -/
inductive Report where
  | NoOpTransition
  | TransitionRejected
  | TransitionUnconfirmed
deriving Repr, DecidableEq

/-- Outcome of the remote confirmation `POST /api/v1/lead/updateLeadStatus`:
the response's `success` flag, or the fetch itself throwing. -/
inductive RemoteResult where
  | ok
  | rejected
  | transportError
deriving Repr, DecidableEq

/-- Everything observable about one `handleDrop` invocation: the final
`groupedLeads` state, the conditions reported on the console, and whether
the remote confirmation request was issued. -/
structure DropOutcome where
  store : GroupedLeads
  reports : List Report
  remoteCalled : Bool

/-- Model of `handleDrop` (page.tsx lines 82-148) for a drop of `lead` from
`fromStatus` onto `toStatus`, with the remote confirmation resolving as
`remote`.  Returns `none` when a state updater would throw (absent source
key).  Same-status drops return before any mutation or remote call;
otherwise the optimistic updater runs, the remote call is issued, and the
rejected/transport-error branches run their respective rollback updater. -/
def handleDrop (lead : Lead) (fromStatus toStatus : String)
    (remote : RemoteResult) (prev : GroupedLeads) : Option DropOutcome :=
  if fromStatus = toStatus then
    some { store := prev, reports := [Report.NoOpTransition], remoteCalled := false }
  else
    match applyOptimistic lead fromStatus toStatus prev with
    | none => none
    | some applied =>
        match remote with
        | RemoteResult.ok =>
            some { store := applied, reports := [], remoteCalled := true }
        | RemoteResult.rejected =>
            match applyRollbackOnReject lead fromStatus toStatus applied with
            | none => none
            | some rolled =>
                some { store := rolled, reports := [Report.TransitionRejected],
                       remoteCalled := true }
        | RemoteResult.transportError =>
            match applyRollbackOnError lead fromStatus toStatus applied with
            | none => none
            | some rolled =>
                some { store := rolled, reports := [Report.TransitionUnconfirmed],
                       remoteCalled := true }

/-- Response of the initial load `GET /api/v1/lead/getAllLeads`: a success
payload, a `{ success: false, message }` body, or the fetch throwing. -/
inductive FetchResponse where
  | ok (data : List Lead)
  | fail (message : String)
  | networkError
deriving Repr, DecidableEq

/-- Model of `getAllLeads` (page.tsx lines 22-36).  On `success` it returns the data;
otherwise `throw new Error(data.message)` is caught by the function's own
`catch`, which logs and rethrows `new Error("Failed to fetch leads")`, so
both failure shapes surface the same generic message. -/
def getAllLeads (resp : FetchResponse) : Except String (List Lead) :=
  match resp with
  | FetchResponse.ok data => Except.ok data
  | FetchResponse.fail _ => Except.error "Failed to fetch leads"
  | FetchResponse.networkError => Except.error "Failed to fetch leads"

/-- The component state touched by the initial load: the `leads`,
`groupedLeads` and `error` React states with their initial values. -/
structure AppState where
  leads : List Lead
  groupedLeads : GroupedLeads
  error : String

/-- The `useState` initial values: `[]`, `{}`, `""`. -/
def initialAppState : AppState :=
  { leads := [], groupedLeads := emptyGrouped, error := "" }

/-- Model of `fetchLeads` inside the mount effect (page.tsx lines 44-53): seed the
store from a successful load, otherwise set the `error` state to the caught
error's message. -/
def fetchLeads (resp : FetchResponse) (st : AppState) : AppState :=
  match getAllLeads resp with
  | Except.ok fetched =>
      { st with leads := fetched, groupedLeads := groupLeadsByStatus fetched }
  | Except.error msg => { st with error := msg }

/-- Membership of a record identifier in the partition at key `s` (an absent
key is the empty partition, as rendering treats it). -/
def idInPartition (g : GroupedLeads) (s : String) (id : String) : Prop :=
  ∃ l ∈ (g s).getD [], l._id = id

instance (g : GroupedLeads) (s id : String) : Decidable (idInPartition g s id) :=
  List.decidableBEx _ _

/-- A record identifier occurs in at most one partition of `g`. -/
def AtMostOne (g : GroupedLeads) (id : String) : Prop :=
  ∀ s1 s2, idInPartition g s1 id → idInPartition g s2 id → s1 = s2

/-- A record identifier occurs in exactly one partition of `g`. -/
def ExactlyOnePartition (g : GroupedLeads) (id : String) : Prop :=
  (∃ s, idInPartition g s id) ∧ AtMostOne g id

/-- One store mutation of the drop protocol: the optimistic apply or a
compensating rollback, with the drop's drag payload and endpoints. -/
inductive MoveStep where
  | optimistic (lead : Lead) (fromStatus toStatus : String)
  | rollback (lead : Lead) (fromStatus toStatus : String)

/-- Apply one step to the store (rollback uses the rejection-branch updater;
the catch-branch updater is the same function). -/
def applyStep (g : GroupedLeads) : MoveStep → Option GroupedLeads
  | MoveStep.optimistic lead f t => applyOptimistic lead f t g
  | MoveStep.rollback lead f t => applyRollbackOnReject lead f t g

/-- A step is well formed in state `g` when its endpoints differ (enforced
for drops by the same-status guard) and the moved id is present in the
partition the step removes it from (true for drops initiated by
`handleDragStart` on a rendered card, and for rollbacks of an applied
optimistic move). -/
def WellFormedStep (g : GroupedLeads) : MoveStep → Prop
  | MoveStep.optimistic lead f t => f ≠ t ∧ idInPartition g f lead._id
  | MoveStep.rollback lead f t => f ≠ t ∧ idInPartition g t lead._id

/-- A run of well-formed steps from `g` to `g'`, each step applied to the
state the previous ones produced. -/
inductive WFRun : GroupedLeads → List MoveStep → GroupedLeads → Prop where
  | nil (g : GroupedLeads) : WFRun g [] g
  | cons {g g' gf : GroupedLeads} {st : MoveStep} {rest : List MoveStep} :
      WellFormedStep g st → applyStep g st = some g' → WFRun g' rest gf →
      WFRun g (st :: rest) gf

/-- A sample lead in the `New` partition, used to instantiate theorems at
concrete inputs. -/
def leadA : Lead :=
  { _id := "a", companyName := "Acme", customerName := "Ann", amount := 100,
    productName := "Widget", contactNumber := "1", emailAddress := "a@x",
    address := "HQ", notes := "", date := "2025-01-01", endDate := "2025-02-01",
    status := "New", isActive := true }

/-- A second sample lead, in the `Demo` partition. -/
def leadB : Lead := { leadA with _id := "b", status := "Demo" }

/-- A sample grouped store seeded from an initial load of two leads. -/
def sampleStore : GroupedLeads := groupLeadsByStatus [leadA, leadB]

theorem setStatus_self (g : GroupedLeads) (k : String) (v : List Lead) :
    setStatus g k v k = some v := by
  simp [setStatus]

theorem setStatus_other (g : GroupedLeads) (k : String) (v : List Lead)
    (s : String) (h : s ≠ k) : setStatus g k v s = g s := by
  simp [setStatus, h]

theorem applyOptimistic_some (lead : Lead) (fromStatus toStatus : String)
    (prev : GroupedLeads) (fl : List Lead) (h : prev fromStatus = some fl) :
    applyOptimistic lead fromStatus toStatus prev =
      some (setStatus (setStatus prev fromStatus
          (fl.filter (fun l => l._id != lead._id))) toStatus
        ((prev toStatus).getD [] ++ [{ lead with status := toStatus }])) := by
  unfold applyOptimistic
  rw [h]

theorem applyRollbackOnReject_some (lead : Lead) (fromStatus toStatus : String)
    (prev : GroupedLeads) (tl : List Lead) (h : prev toStatus = some tl) :
    applyRollbackOnReject lead fromStatus toStatus prev =
      some (setStatus (setStatus prev fromStatus
          ((prev fromStatus).getD [] ++ [lead])) toStatus
        (tl.filter (fun l => l._id != lead._id))) := by
  unfold applyRollbackOnReject
  rw [h]

/-- C4: a drop with `sourceStatus == destinationStatus` leaves the store
byte-for-byte unchanged, issues no remote call, and reports
`NoOpTransition` (the `console.warn` guard at page.tsx lines 88-92). -/
theorem noop_drop_unchanged (lead : Lead) (fromStatus toStatus : String)
    (remote : RemoteResult) (prev : GroupedLeads) (h : fromStatus = toStatus) :
    handleDrop lead fromStatus toStatus remote prev =
      some { store := prev, reports := [Report.NoOpTransition],
             remoteCalled := false } := by
  unfold handleDrop
  rw [if_pos h]

/-- Closed instance of `noop_drop_unchanged` at a concrete drop. -/
theorem noop_drop_unchanged_witness :
    ("New" : String) = "New" ∧
      handleDrop leadA "New" "New" RemoteResult.ok sampleStore =
        some { store := sampleStore, reports := [Report.NoOpTransition],
               remoteCalled := false } :=
  ⟨rfl, noop_drop_unchanged leadA "New" "New" RemoteResult.ok sampleStore rfl⟩

/-- C6: when the remote confirmation answers `success = true`, `handleDrop`
performs no further store mutation: the final store is exactly the state
the optimistic updater produced. -/
theorem success_no_further_mutation (lead : Lead) (fromStatus toStatus : String)
    (prev applied : GroupedLeads) (hne : fromStatus ≠ toStatus)
    (happ : applyOptimistic lead fromStatus toStatus prev = some applied) :
    handleDrop lead fromStatus toStatus RemoteResult.ok prev =
      some { store := applied, reports := [], remoteCalled := true } := by
  unfold handleDrop
  rw [if_neg hne, happ]

/-- The store produced by the optimistic updater on the sample drop. -/
def appliedSample : GroupedLeads :=
  (applyOptimistic leadA "New" "Demo" sampleStore).getD emptyGrouped

/-- Closed instance of `success_no_further_mutation` at a concrete drop. -/
theorem success_no_further_mutation_witness :
    ("New" : String) ≠ "Demo" ∧
      applyOptimistic leadA "New" "Demo" sampleStore = some appliedSample ∧
      handleDrop leadA "New" "Demo" RemoteResult.ok sampleStore =
        some { store := appliedSample, reports := [], remoteCalled := true } :=
  ⟨by decide, rfl,
    success_no_further_mutation leadA "New" "Demo" sampleStore appliedSample
      (by decide) rfl⟩

/-- C1: on a drop between distinct statuses whose record is present in the
source partition, the state right after the optimistic updater (before the
remote call resolves) shows the record in the destination partition with
its status field set to the destination, and no record with its id left in
the source partition. -/
theorem optimistic_visibility (lead : Lead) (fromStatus toStatus : String)
    (prev : GroupedLeads) (fl : List Lead) (hne : fromStatus ≠ toStatus)
    (hsrc : prev fromStatus = some fl) (hmem : lead ∈ fl) :
    ∃ g', applyOptimistic lead fromStatus toStatus prev = some g' ∧
      { lead with status := toStatus } ∈ (g' toStatus).getD [] ∧
      ∀ l ∈ (g' fromStatus).getD [], l._id ≠ lead._id := by
  refine ⟨_, applyOptimistic_some lead fromStatus toStatus prev fl hsrc, ?_, ?_⟩
  · simp [setStatus]
  · intro l hl
    rw [setStatus_other _ _ _ _ hne, setStatus_self] at hl
    simp only [Option.getD_some, List.mem_filter, bne_iff_ne, ne_eq,
      decide_not] at hl
    simpa using hl.2

/-- Closed instance of `optimistic_visibility` at a concrete drop. -/
theorem optimistic_visibility_witness :
    ("New" : String) ≠ "Demo" ∧ sampleStore "New" = some [leadA] ∧
      leadA ∈ [leadA] ∧
      ∃ g2, applyOptimistic leadA "New" "Demo" sampleStore = some g2 ∧
        { leadA with status := "Demo" } ∈ (g2 "Demo").getD [] ∧
        ∀ l ∈ (g2 "New").getD [], l._id ≠ leadA._id :=
  ⟨by decide, by decide, by decide,
    optimistic_visibility leadA "New" "Demo" sampleStore [leadA] (by decide)
      (by decide) (by decide)⟩

/-- C2: on a drop whose remote confirmation answers `success = false`, the
rollback updater restores the record (its original object, so its original
status value) to the source partition, removes its id from the destination
partition, and `TransitionRejected` is reported exactly once. -/
theorem rollback_on_rejection (lead : Lead) (fromStatus toStatus : String)
    (prev : GroupedLeads) (fl : List Lead) (hne : fromStatus ≠ toStatus)
    (hsrc : prev fromStatus = some fl) :
    ∃ out, handleDrop lead fromStatus toStatus RemoteResult.rejected prev =
        some out ∧
      lead ∈ (out.store fromStatus).getD [] ∧
      (∀ l ∈ (out.store toStatus).getD [], l._id ≠ lead._id) ∧
      out.reports.count Report.TransitionRejected = 1 := by
  unfold handleDrop
  rw [if_neg hne, applyOptimistic_some lead fromStatus toStatus prev fl hsrc]
  dsimp only
  have hr := applyRollbackOnReject_some lead fromStatus toStatus
    (setStatus (setStatus prev fromStatus
        (fl.filter (fun l => l._id != lead._id))) toStatus
      ((prev toStatus).getD [] ++ [{ lead with status := toStatus }]))
    ((prev toStatus).getD [] ++ [{ lead with status := toStatus }])
    (setStatus_self _ _ _)
  rw [hr]
  refine ⟨_, rfl, ?_, ?_, by simp⟩
  · simp [setStatus, hne]
  · intro l hl
    simp [setStatus] at hl
    exact hl.2

/-- Closed instance of `rollback_on_rejection` at a concrete drop. -/
theorem rollback_on_rejection_witness :
    ("New" : String) ≠ "Demo" ∧ sampleStore "New" = some [leadA] ∧
      ∃ out, handleDrop leadA "New" "Demo" RemoteResult.rejected sampleStore =
          some out ∧
        leadA ∈ (out.store "New").getD [] ∧
        (∀ l ∈ (out.store "Demo").getD [], l._id ≠ leadA._id) ∧
        out.reports.count Report.TransitionRejected = 1 :=
  ⟨by decide, by decide,
    rollback_on_rejection leadA "New" "Demo" sampleStore [leadA] (by decide)
      (by decide)⟩

/-- C3: the transport-error path of `handleDrop` is the rejection path with
a different report: its compensating updater is the same function of the
store (the two closures are verbatim duplicates), the resulting stores are
identical for every drop, and `TransitionUnconfirmed` is reported exactly
where the rejection path reports `TransitionRejected`. -/
theorem transport_error_matches_rejection (lead : Lead)
    (fromStatus toStatus : String) (prev : GroupedLeads) :
    applyRollbackOnError = applyRollbackOnReject ∧
    (handleDrop lead fromStatus toStatus RemoteResult.transportError prev).map
        DropOutcome.store =
      (handleDrop lead fromStatus toStatus RemoteResult.rejected prev).map
        DropOutcome.store ∧
    (handleDrop lead fromStatus toStatus RemoteResult.transportError prev).map
        DropOutcome.reports =
      (handleDrop lead fromStatus toStatus RemoteResult.rejected prev).map
        (fun o => o.reports.map (fun r =>
          if r = Report.TransitionRejected then Report.TransitionUnconfirmed
          else r)) := by
  refine ⟨rfl, ?_, ?_⟩
  · unfold handleDrop
    by_cases h : fromStatus = toStatus
    · rw [if_pos h, if_pos h]
    · rw [if_neg h, if_neg h]
      cases happ : applyOptimistic lead fromStatus toStatus prev with
      | none => rfl
      | some applied =>
          dsimp only
          have herr : applyRollbackOnError lead fromStatus toStatus applied =
              applyRollbackOnReject lead fromStatus toStatus applied := rfl
          rw [herr]
          cases hroll :
              applyRollbackOnReject lead fromStatus toStatus applied with
          | none => rfl
          | some rolled => rfl
  · unfold handleDrop
    by_cases h : fromStatus = toStatus
    · rw [if_pos h, if_pos h]
      simp
    · rw [if_neg h, if_neg h]
      cases happ : applyOptimistic lead fromStatus toStatus prev with
      | none => rfl
      | some applied =>
          dsimp only
          have herr : applyRollbackOnError lead fromStatus toStatus applied =
              applyRollbackOnReject lead fromStatus toStatus applied := rfl
          rw [herr]
          cases hroll :
              applyRollbackOnReject lead fromStatus toStatus applied with
          | none => rfl
          | some rolled => simp

/-- C9 counterexample: an initial load answering `success = false` with
message `"boom"` leaves the store unseeded but surfaces the generic
`"Failed to fetch leads"` in the `error` state — not the response's
message, because `getAllLeads` catches its own `throw new
Error(data.message)` and rethrows a fixed string. -/
theorem load_failure_message_counterexample :
    (fetchLeads (FetchResponse.fail "boom") initialAppState).error =
        "Failed to fetch leads" ∧
      (fetchLeads (FetchResponse.fail "boom") initialAppState).error ≠
        "boom" ∧
      (fetchLeads (FetchResponse.fail "boom") initialAppState).leads = [] ∧
      (fetchLeads (FetchResponse.fail "boom") initialAppState).groupedLeads =
        emptyGrouped :=
  ⟨rfl, by decide, rfl, rfl⟩

/-- C9 amended: on any `success = false` load response the Record Store
stays empty/unseeded, and the fixed generic message `"Failed to fetch
leads"` is surfaced as the load-failure condition, whatever message the
response carried (the response's own message is only logged to the console
before the catch in `getAllLeads` replaces it). -/
theorem load_failure_generic_message (message : String) :
    fetchLeads (FetchResponse.fail message) initialAppState =
      { initialAppState with error := "Failed to fetch leads" } := rfl

/-- A store whose `New` partition key exists but no longer holds the
dragged lead's id, as after that lead was already moved out. -/
def staleStore : GroupedLeads := setStatus emptyGrouped "New" []

/-- C7 counterexample: dropping `leadA` out of a `New` partition that does
not contain its id neither reports any condition nor stops: the remote
call is issued, the record is appended to the destination anyway, and the
report list is empty (no `NotFoundError` exists in the code). -/
theorem move_absent_id_counterexample :
    ¬ idInPartition staleStore "New" leadA._id ∧
      ((handleDrop leadA "New" "Demo" RemoteResult.ok staleStore).map
          (fun o => o.remoteCalled) = some true) ∧
      ((handleDrop leadA "New" "Demo" RemoteResult.ok staleStore).map
          (fun o => o.store "Demo") =
        some (some [{ leadA with status := "Demo" }])) ∧
      ((handleDrop leadA "New" "Demo" RemoteResult.ok staleStore).map
          (fun o => o.reports) = some []) := by
  refine ⟨by decide, ?_, ?_, ?_⟩ <;> rfl

/-- C7 amended: the code has no `NotFoundError` path.  When the dragged id
is absent from the `fromStatus` partition but that key exists, the drop
proceeds silently — the filter removes nothing from the source, the record
is still appended to the destination, the remote call is issued, and
nothing is reported; when the `fromStatus` key is absent altogether, the
optimistic updater throws (`prev[fromStatus]` is `undefined`), so the drop
crashes rather than reporting. -/
theorem move_absent_id_proceeds (lead : Lead) (fromStatus toStatus : String)
    (prev : GroupedLeads) (fl : List Lead) (hne : fromStatus ≠ toStatus)
    (hsrc : prev fromStatus = some fl)
    (habs : ∀ l ∈ fl, l._id ≠ lead._id) :
    (∃ out, handleDrop lead fromStatus toStatus RemoteResult.ok prev =
        some out ∧
      out.store fromStatus = some fl ∧
      out.store toStatus =
        some ((prev toStatus).getD [] ++ [{ lead with status := toStatus }]) ∧
      out.remoteCalled = true ∧ out.reports = []) ∧
    (∀ q : GroupedLeads, q fromStatus = none →
      handleDrop lead fromStatus toStatus RemoteResult.ok q = none) := by
  constructor
  · refine ⟨DropOutcome.mk (setStatus (setStatus prev fromStatus
        (fl.filter (fun l => l._id != lead._id))) toStatus
        ((prev toStatus).getD [] ++ [{ lead with status := toStatus }]))
        [] true, ?_, ?_, ?_, rfl, rfl⟩
    · unfold handleDrop
      rw [if_neg hne, applyOptimistic_some lead fromStatus toStatus prev fl hsrc]
    · have hfl : fl.filter (fun l => l._id != lead._id) = fl := by
        rw [List.filter_eq_self]
        intro a ha
        simpa using habs a ha
      simp [setStatus, hne, hfl]
    · simp [setStatus]
  · intro q hq
    unfold handleDrop
    rw [if_neg hne]
    unfold applyOptimistic
    rw [hq]

/-- Closed instance of `move_absent_id_proceeds` at a concrete drop. -/
theorem move_absent_id_proceeds_witness :
    ("Demo" : String) ≠ "New" ∧ sampleStore "Demo" = some [leadB] ∧
      (∀ l ∈ [leadB], l._id ≠ leadA._id) ∧
      ((∃ out, handleDrop leadA "Demo" "New" RemoteResult.ok sampleStore =
          some out ∧
        out.store "Demo" = some [leadB] ∧
        out.store "New" =
          some ((sampleStore "New").getD [] ++ [{ leadA with status := "New" }]) ∧
        out.remoteCalled = true ∧ out.reports = []) ∧
      (∀ q : GroupedLeads, q "Demo" = none →
        handleDrop leadA "Demo" "New" RemoteResult.ok q = none)) :=
  ⟨by decide, by decide, by decide,
    move_absent_id_proceeds leadA "Demo" "New" sampleStore [leadB] (by decide)
      (by decide) (by decide)⟩

/-- C10: both the optimistic updater and the rollback updater are total on
an absent destination key: the guarded lookup `prev[toStatus] || []`
(resp. `prev[fromStatus] || []`) creates the partition, which then holds
exactly the moved record. -/
theorem move_total_on_absent_destination (lead : Lead)
    (fromStatus toStatus : String) (prev q : GroupedLeads)
    (fl tl : List Lead) (hne : fromStatus ≠ toStatus)
    (hsrc : prev fromStatus = some fl) (habsent : prev toStatus = none)
    (hq1 : q toStatus = some tl) (hq2 : q fromStatus = none) :
    (∃ g', applyOptimistic lead fromStatus toStatus prev = some g' ∧
      g' toStatus = some [{ lead with status := toStatus }]) ∧
    (∃ g2, applyRollbackOnReject lead fromStatus toStatus q = some g2 ∧
      g2 fromStatus = some [lead]) := by
  constructor
  · refine ⟨_, applyOptimistic_some lead fromStatus toStatus prev fl hsrc, ?_⟩
    simp [setStatus, habsent]
  · refine ⟨_, applyRollbackOnReject_some lead fromStatus toStatus q tl hq1, ?_⟩
    simp [setStatus, hne, hq2]

/-- A store holding only a `New` partition. -/
def srcOnlyStore : GroupedLeads := setStatus emptyGrouped "New" [leadA]

/-- A store holding only a `Demo` partition. -/
def dstOnlyStore : GroupedLeads :=
  setStatus emptyGrouped "Demo" [{ leadA with status := "Demo" }]

/-- Closed instance of `move_total_on_absent_destination` at concrete
stores missing the respective destination keys. -/
theorem move_total_on_absent_destination_witness :
    ("New" : String) ≠ "Demo" ∧ srcOnlyStore "New" = some [leadA] ∧
      srcOnlyStore "Demo" = none ∧
      dstOnlyStore "Demo" = some [{ leadA with status := "Demo" }] ∧
      dstOnlyStore "New" = none ∧
      ((∃ g', applyOptimistic leadA "New" "Demo" srcOnlyStore = some g' ∧
        g' "Demo" = some [{ leadA with status := "Demo" }]) ∧
      (∃ g2, applyRollbackOnReject leadA "New" "Demo" dstOnlyStore = some g2 ∧
        g2 "New" = some [leadA])) :=
  ⟨by decide, by decide, by decide, by decide, by decide,
    move_total_on_absent_destination leadA "New" "Demo" srcOnlyStore
      dstOnlyStore [leadA] [{ leadA with status := "Demo" }] (by decide)
      (by decide) (by decide) (by decide) (by decide)⟩

theorem mem_foldl_groupStep (leads : List Lead) (acc : GroupedLeads)
    (s : String) (l : Lead) :
    l ∈ ((leads.foldl groupStep acc) s).getD [] ↔
      l ∈ (acc s).getD [] ∨ (l ∈ leads ∧ l.status = s) := by
  induction leads generalizing acc with
  | nil => simp
  | cons x xs ih =>
      rw [List.foldl_cons, ih]
      by_cases hs : s = x.status
      · subst hs
        have hg : (groupStep acc x) x.status =
            some ((acc x.status).getD [] ++ [x]) := setStatus_self _ _ _
        rw [hg]
        simp only [Option.getD_some, List.mem_append, List.mem_cons,
          List.mem_nil_iff, or_false]
        constructor
        · rintro ((h | rfl) | ⟨hx, hst⟩)
          · exact Or.inl h
          · exact Or.inr ⟨Or.inl rfl, rfl⟩
          · exact Or.inr ⟨Or.inr hx, hst⟩
        · rintro (h | ⟨hx | hx, hst⟩)
          · exact Or.inl (Or.inl h)
          · exact Or.inl (Or.inr hx)
          · exact Or.inr ⟨hx, hst⟩
      · have hg : (groupStep acc x) s = acc s := setStatus_other _ _ _ _ hs
        rw [hg]
        simp only [List.mem_cons]
        constructor
        · rintro (h | ⟨hx, hst⟩)
          · exact Or.inl h
          · exact Or.inr ⟨Or.inr hx, hst⟩
        · rintro (h | ⟨hx | hx, hst⟩)
          · exact Or.inl h
          · subst hx
            exact absurd hst.symm hs
          · exact Or.inr ⟨hx, hst⟩

theorem mem_groupLeadsByStatus (leads : List Lead) (s : String) (l : Lead) :
    l ∈ ((groupLeadsByStatus leads) s).getD [] ↔ l ∈ leads ∧ l.status = s := by
  unfold groupLeadsByStatus
  rw [mem_foldl_groupStep]
  simp [emptyGrouped]

/-- The invariant carried across drop sequences: every identifier occupies
at most one partition, and every fetched lead's identifier occupies some
partition. -/
def StoreInv (leads : List Lead) (g : GroupedLeads) : Prop :=
  (∀ id, AtMostOne g id) ∧ ∀ lead ∈ leads, ∃ s, idInPartition g s lead._id

theorem storeInv_init (leads : List Lead)
    (hnodup : (leads.map Lead._id).Nodup) :
    StoreInv leads (groupLeadsByStatus leads) := by
  constructor
  · intro id s1 s2 h1 h2
    obtain ⟨l1, hl1, hid1⟩ := h1
    obtain ⟨l2, hl2, hid2⟩ := h2
    rw [mem_groupLeadsByStatus] at hl1 hl2
    have hl12 : l1 = l2 :=
      List.inj_on_of_nodup_map hnodup hl1.1 hl2.1 (by rw [hid1, hid2])
    rw [← hl1.2, ← hl2.2, hl12]
  · intro lead hl
    exact ⟨lead.status, lead, (mem_groupLeadsByStatus _ _ _).2 ⟨hl, rfl⟩, rfl⟩

theorem moveState_preserves_inv (leads : List Lead) (g : GroupedLeads)
    (src dst : String) (id0 : String) (e : Lead) (g' : GroupedLeads)
    (hsd : src ≠ dst) (he : e._id = id0)
    (hsrcf : (g' src).getD [] =
      ((g src).getD []).filter (fun l => l._id != id0))
    (hdstf : (g' dst).getD [] = (g dst).getD [] ++ [e])
    (hoth : ∀ s, s ≠ src → s ≠ dst → (g' s).getD [] = (g s).getD [])
    (hpres : idInPartition g src id0)
    (hinv : StoreInv leads g) : StoreInv leads g' := by
  obtain ⟨hat, hcov⟩ := hinv
  have hchar : ∀ s id, idInPartition g' s id →
      (s = dst ∧ id = id0) ∨
        (idInPartition g s id ∧ ¬(s = src ∧ id = id0)) := by
    intro s id h
    obtain ⟨l, hl, hlid⟩ := h
    by_cases hs1 : s = src
    · subst hs1
      rw [hsrcf, List.mem_filter] at hl
      have hne0 : l._id ≠ id0 := by simpa using hl.2
      exact Or.inr ⟨⟨l, hl.1, hlid⟩, fun hc => hne0 (hlid.trans hc.2)⟩
    · by_cases hs2 : s = dst
      · subst hs2
        rw [hdstf, List.mem_append] at hl
        rcases hl with hl | hl
        · exact Or.inr ⟨⟨l, hl, hlid⟩, fun hc => hs1 hc.1⟩
        · have hle : l = e := by simpa using hl
          exact Or.inl ⟨rfl, by rw [← hlid, hle]; exact he⟩
      · rw [hoth s hs1 hs2] at hl
        exact Or.inr ⟨⟨l, hl, hlid⟩, fun hc => hs1 hc.1⟩
  constructor
  · intro id s1 s2 h1 h2
    rcases hchar s1 id h1 with ⟨hd1, hi1⟩ | ⟨hg1, hn1⟩ <;>
      rcases hchar s2 id h2 with ⟨hd2, hi2⟩ | ⟨hg2, hn2⟩
    · rw [hd1, hd2]
    · have hs2src : s2 = src :=
        hat id s2 src hg2 (by rw [hi1]; exact hpres)
      exact absurd ⟨hs2src, hi1⟩ hn2
    · have hs1src : s1 = src :=
        hat id s1 src hg1 (by rw [hi2]; exact hpres)
      exact absurd ⟨hs1src, hi2⟩ hn1
    · exact hat id s1 s2 hg1 hg2
  · intro lead hl
    by_cases hid : lead._id = id0
    · exact ⟨dst, e, by rw [hdstf]; simp, he.trans hid.symm⟩
    · obtain ⟨s, l, hls, hlid⟩ := hcov lead hl
      by_cases hs1 : s = src
      · refine ⟨src, l, ?_, hlid⟩
        rw [hsrcf, List.mem_filter]
        refine ⟨hs1 ▸ hls, ?_⟩
        simp only [bne_iff_ne, ne_eq, decide_not]
        simp [hlid, hid]
      · by_cases hs2 : s = dst
        · refine ⟨dst, l, ?_, hlid⟩
          rw [hdstf]
          exact List.mem_append_left _ (hs2 ▸ hls)
        · exact ⟨s, l, by rw [hoth s hs1 hs2]; exact hls, hlid⟩

theorem applyStep_preserves_inv (leads : List Lead) (g g' : GroupedLeads)
    (st : MoveStep) (hwf : WellFormedStep g st)
    (happ : applyStep g st = some g') (hinv : StoreInv leads g) :
    StoreInv leads g' := by
  cases st with
  | optimistic lead f t =>
      obtain ⟨hne, hpres⟩ := hwf
      obtain ⟨l, hl, hlid⟩ := hpres
      cases hgf : g f with
      | none =>
          rw [hgf] at hl
          simp at hl
      | some fl =>
          rw [applyStep, applyOptimistic_some lead f t g fl hgf] at happ
          injection happ with happ
          subst happ
          refine moveState_preserves_inv leads g f t lead._id
            { lead with status := t } _ hne rfl ?_ ?_ ?_ ⟨l, hl, hlid⟩
            ⟨hinv.1, hinv.2⟩
          · simp [setStatus, hne, hgf]
          · simp [setStatus]
          · intro s hs1 hs2
            simp [setStatus, hs1, hs2]
  | rollback lead f t =>
      obtain ⟨hne, hpres⟩ := hwf
      obtain ⟨l, hl, hlid⟩ := hpres
      cases hgt : g t with
      | none =>
          rw [hgt] at hl
          simp at hl
      | some tl =>
          rw [applyStep, applyRollbackOnReject_some lead f t g tl hgt] at happ
          injection happ with happ
          subst happ
          refine moveState_preserves_inv leads g t f lead._id lead _
            (Ne.symm hne) rfl ?_ ?_ ?_ ⟨l, hl, hlid⟩ ⟨hinv.1, hinv.2⟩
          · simp [setStatus, hgt]
          · simp [setStatus, hne]
          · intro s hs1 hs2
            simp [setStatus, hs1, hs2]

theorem wfRun_preserves_inv (leads : List Lead) (steps : List MoveStep)
    (g gf : GroupedLeads) (hrun : WFRun g steps gf)
    (hinv : StoreInv leads g) : StoreInv leads gf := by
  induction hrun with
  | nil g => exact hinv
  | cons hwf happ hrest ih =>
      exact ih (applyStep_preserves_inv leads _ _ _ hwf happ hinv)

/-- C5: partition disjointness is invariant.  Starting from the grouping of
fetched leads (with pairwise distinct ids) and applying any well-formed
sequence of moves — optimistic applies and rollbacks — every fetched
record's identifier occupies exactly one status partition.  Every
observation point of a run is the final state of one of its prefixes, and
`WFRun` quantifies over all of those too. -/
theorem partition_disjointness (leads : List Lead) (steps : List MoveStep)
    (g : GroupedLeads) (hnodup : (leads.map Lead._id).Nodup)
    (hrun : WFRun (groupLeadsByStatus leads) steps g) :
    ∀ lead ∈ leads, ExactlyOnePartition g lead._id := by
  have hinv :=
    wfRun_preserves_inv leads steps _ g hrun (storeInv_init leads hnodup)
  intro lead hl
  exact ⟨hinv.2 lead hl, fun s1 s2 h1 h2 => hinv.1 lead._id s1 s2 h1 h2⟩

/-- Closed instance of `partition_disjointness`: the two sample leads after
an optimistic move of `leadA` from `New` to `Demo`. -/
theorem partition_disjointness_witness :
    (([leadA, leadB].map Lead._id).Nodup) ∧
      ∀ lead ∈ [leadA, leadB], ExactlyOnePartition appliedSample lead._id := by
  have hnodup : ([leadA, leadB].map Lead._id).Nodup := by decide
  have hwf : WellFormedStep sampleStore
      (MoveStep.optimistic leadA "New" "Demo") := by
    show ("New" : String) ≠ "Demo" ∧ idInPartition sampleStore "New" leadA._id
    exact ⟨by decide, by decide⟩
  have happ : applyStep sampleStore (MoveStep.optimistic leadA "New" "Demo") =
      some appliedSample := rfl
  exact ⟨hnodup,
    partition_disjointness [leadA, leadB]
      [MoveStep.optimistic leadA "New" "Demo"] appliedSample hnodup
      (WFRun.cons hwf happ (WFRun.nil appliedSample))⟩

theorem filter_append_single_id (tl0 : List Lead) (upd : Lead) (id0 : String)
    (hupd : upd._id = id0) (hnd : ∀ l ∈ tl0, l._id ≠ id0) :
    (tl0 ++ [upd]).filter (fun l => l._id != id0) = tl0 := by
  rw [List.filter_append]
  have h1 : tl0.filter (fun l => l._id != id0) = tl0 := by
    rw [List.filter_eq_self]
    intro a ha
    simpa using hnd a ha
  have h2 : [upd].filter (fun l => l._id != id0) = [] := by
    simp [hupd]
  rw [h1, h2, List.append_nil]

theorem idIn_filter_concat (fl : List Lead) (lead : Lead) (id : String)
    (hmem : lead ∈ fl) :
    (∃ l ∈ fl.filter (fun l2 => l2._id != lead._id) ++ [lead], l._id = id) ↔
      ∃ l ∈ fl, l._id = id := by
  constructor
  · rintro ⟨l, hl, hlid⟩
    rw [List.mem_append] at hl
    rcases hl with hl | hl
    · rw [List.mem_filter] at hl
      exact ⟨l, hl.1, hlid⟩
    · have hle : l = lead := by simpa using hl
      exact ⟨lead, hmem, by rw [← hle]; exact hlid⟩
  · rintro ⟨l, hl, hlid⟩
    by_cases hid : l._id = lead._id
    · refine ⟨lead, List.mem_append_right _ (by simp), ?_⟩
      rw [← hid]
      exact hlid
    · refine ⟨l, List.mem_append_left _ ?_, hlid⟩
      rw [List.mem_filter]
      exact ⟨hl, by simpa using hid⟩

theorem roundtrip_partitions (prev G : GroupedLeads)
    (fromStatus toStatus : String) (fl : List Lead) (lead : Lead)
    (hsrc : prev fromStatus = some fl) (hmem : lead ∈ fl)
    (hGf : (G fromStatus).getD [] =
      fl.filter (fun l2 => l2._id != lead._id) ++ [lead])
    (hGt : (G toStatus).getD [] = (prev toStatus).getD [])
    (hGo : ∀ s, s ≠ fromStatus → s ≠ toStatus → G s = prev s) :
    ∀ s id, idInPartition G s id ↔ idInPartition prev s id := by
  intro s id
  by_cases hs1 : s = fromStatus
  · rw [hs1]
    unfold idInPartition
    rw [hGf, hsrc, Option.getD_some]
    exact idIn_filter_concat fl lead id hmem
  · by_cases hs2 : s = toStatus
    · rw [hs2]
      unfold idInPartition
      rw [hGt]
    · unfold idInPartition
      rw [hGo s hs1 hs2]

/-- C8: the optimistic move followed by its compensating rollback restores
the store's partition membership: every partition holds the same set of
record ids as before the pair of moves, and the record — the original
object, status field still its source value — now sits at the end of the
source partition rather than at its former position. -/
theorem move_roundtrip (lead : Lead) (fromStatus toStatus : String)
    (prev : GroupedLeads) (fl : List Lead) (hne : fromStatus ≠ toStatus)
    (hsrc : prev fromStatus = some fl) (hmem : lead ∈ fl)
    (hstat : lead.status = fromStatus)
    (hnd : ∀ l ∈ (prev toStatus).getD [], l._id ≠ lead._id) :
    ∃ g', (applyOptimistic lead fromStatus toStatus prev).bind
        (applyRollbackOnReject lead fromStatus toStatus) = some g' ∧
      (∀ s id, idInPartition g' s id ↔ idInPartition prev s id) ∧
      (g' fromStatus).getD [] =
        fl.filter (fun l2 => l2._id != lead._id) ++ [lead] ∧
      ((g' fromStatus).getD []).getLast? = some lead ∧
      lead.status = fromStatus := by
  rw [applyOptimistic_some lead fromStatus toStatus prev fl hsrc,
    Option.some_bind]
  have hr := applyRollbackOnReject_some lead fromStatus toStatus
    (setStatus (setStatus prev fromStatus
        (fl.filter (fun l => l._id != lead._id))) toStatus
      ((prev toStatus).getD [] ++ [{ lead with status := toStatus }]))
    ((prev toStatus).getD [] ++ [{ lead with status := toStatus }])
    (setStatus_self _ _ _)
  rw [hr]
  have hf := filter_append_single_id ((prev toStatus).getD [])
    { lead with status := toStatus } lead._id rfl hnd
  refine ⟨_, rfl,
    roundtrip_partitions prev _ fromStatus toStatus fl lead hsrc hmem ?_ ?_ ?_,
    ?_, ?_, hstat⟩
  · simp [setStatus, hne]
  · simp [setStatus, hf]
  · intro s hs1 hs2
    simp [setStatus, hs1, hs2]
  · simp [setStatus, hne]
  · simp [setStatus, hne, List.getLast?_concat]

/-- Closed instance of `move_roundtrip`: `leadA` moved `New → Demo` and
rolled back `Demo → New` over the sample store. -/
theorem move_roundtrip_witness :
    ("New" : String) ≠ "Demo" ∧ sampleStore "New" = some [leadA] ∧
      leadA ∈ [leadA] ∧ leadA.status = "New" ∧
      (∀ l ∈ (sampleStore "Demo").getD [], l._id ≠ leadA._id) ∧
      ∃ g2, (applyOptimistic leadA "New" "Demo" sampleStore).bind
          (applyRollbackOnReject leadA "New" "Demo") = some g2 ∧
        (∀ s id, idInPartition g2 s id ↔ idInPartition sampleStore s id) ∧
        (g2 "New").getD [] =
          [leadA].filter (fun l2 => l2._id != leadA._id) ++ [leadA] ∧
        ((g2 "New").getD []).getLast? = some leadA ∧
        leadA.status = "New" :=
  ⟨by decide, by decide, by decide, by decide, by decide,
    move_roundtrip leadA "New" "Demo" sampleStore [leadA] (by decide)
      (by decide) (by decide) (by decide) (by decide)⟩

end Everest
